import Mathlib

/-!
Accounts-SSO account storage plugin

A shallow embedding of `mcp-account-manager-accounts-sso.c`: the mapping between
provider sub-services (`AgAccountService`) and Mission Control account names, the
queue of delayed provider signals, the account creation protocol and the settings
translation layer.

The plugin runs on a single-threaded main loop, so every entry point is a function
on an explicit state.  The state bundles the plugin's private structure with the
parts of the outside world the plugin reads and writes through library calls:
the libaccounts-glib database (`AgManager`), the log of GObject signals emitted on
the plugin, the account store requests and the outstanding signon queries.

Library behaviour assumed by the embedding:
* a value written with `ag_account_service_set_variant` is what the next
  `ag_account_service_get_variant` on the same account and service returns;
* `g_variant_dup_string` on a variant that is not a string, object path or
  signature fails its precondition check and yields `NULL`;
* `ag_manager_get_account` yields `NULL` for an id that is not in the database,
  and the libaccounts-glib calls given a `NULL` account return nothing;
* `ag_account_get_enabled` in `_account_created_cb` reads the global flag of the
  account, and `ag_account_service_get_enabled` holds when both the global flag
  of the account and the flag of the service are on;
* `g_hash_table` iteration visits the entries in the order of the list that
  represents the table.

The fields `am` and `manager` of the private structure are pointers that the
functions below never compare or clear; `manager` stands for the database behind
it and `am` is left out. The queue freed at the end of `ready` is the empty
list.
-/

namespace AccountsSso

/-! ## Provider side: libaccounts-glib and libsignon-glib -/

/-- Identifier of a provider account (`AgAccountId`, a `guint`). -/
abbrev AgAccountId := Nat

/-- The `GVariant` values that may be stored as a setting, by type. -/
inductive GVariant where
  | boolean (b : Bool)
  | string (s : String)
  | object_path (s : String)
  | signature (s : String)
  | int32 (i : Int)
  | other (type_string : String)
  deriving DecidableEq, Repr

/-- An `AgAccountService` object: the account it belongs to
(`ag_account_service_get_account (service)->id`), the name of its `AgService`
and the identity of the object itself (its address). -/
structure AgAccountService where
  account : AgAccountId
  service : String
  obj : Nat
  deriving DecidableEq, Repr

/-- The accounts database as seen through the `AgManager` created for the
service type `"IM"`. -/
structure AgManager where
  /-- ids of the accounts in the database -/
  accounts : List AgAccountId
  /-- names of the services of type `"IM"` of an account -/
  services : AgAccountId → List String
  /-- global enabled flag of an account (no service selected) -/
  enabled : AgAccountId → Bool
  /-- enabled flag of one service of an account -/
  service_enabled : AgAccountId → String → Bool
  /-- settings of one service of an account, by full key -/
  settings : AgAccountId → String → List (String × GVariant)
  display_name : AgAccountId → Option String
  provider_name : AgAccountId → Option String
  /-- icon name of a service (`ag_service_get_icon_name`) -/
  service_icon : String → String
  /-- icon name of the provider of that name, `none` when there is none -/
  provider_icon : Option String → Option String
  /-- credentials id in the authentication data of a service, if it has any -/
  auth_data : AgAccountId → String → Option Nat
  /-- whether `signon_identity_new_from_db` yields an identity for a credentials id -/
  identities : Nat → Bool
  /-- address given to the next `AgAccountService` object -/
  next_obj : Nat

def SERVICE_TYPE : String := "IM"
def KEY_PREFIX : String := "telepathy/"
def KEY_ACCOUNT_NAME : String := "mc-account-name"
def KEY_READONLY_PARAMS : String := "mc-readonly-params"

def ag_manager_get_account (m : AgManager) (id : AgAccountId) : Option AgAccountId :=
  if id ∈ m.accounts then some id else none

def ag_account_list_services_by_type (m : AgManager) (account : Option AgAccountId) :
    List String :=
  match account with
  | none => []
  | some id => m.services id

def ag_account_get_enabled (m : AgManager) (account : AgAccountId) : Bool :=
  m.enabled account

/-- An account service is enabled when both the account and the service are. -/
def ag_account_service_get_enabled (m : AgManager) (service : AgAccountService) : Bool :=
  m.enabled service.account && m.service_enabled service.account service.service

def ag_account_set_enabled (m : AgManager) (account : AgAccountId) (enabled : Bool) :
    AgManager :=
  { m with enabled := fun a => if a = account then enabled else m.enabled a }

def ag_account_set_display_name (m : AgManager) (account : AgAccountId)
    (display_name : Option String) : AgManager :=
  { m with display_name := fun a => if a = account then display_name else m.display_name a }

def ag_account_service_new (m : AgManager) (account : AgAccountId) (service : String) :
    AgAccountService × AgManager :=
  (⟨account, service, m.next_obj⟩, { m with next_obj := m.next_obj + 1 })

def ag_account_service_get_variant (m : AgManager) (service : AgAccountService)
    (key : String) : Option GVariant :=
  (m.settings service.account service.service).lookup key

def ag_account_service_set_variant (m : AgManager) (service : AgAccountService)
    (key : String) (value : Option GVariant) : AgManager :=
  { m with settings := fun a sv =>
      if a = service.account ∧ sv = service.service then
        match value with
        | some v => (key, v) :: (m.settings a sv).filter (fun kv => kv.1 != key)
        | none => (m.settings a sv).filter (fun kv => kv.1 != key)
      else m.settings a sv }

def ag_account_service_get_auth_data (m : AgManager) (service : AgAccountService) :
    Option Nat :=
  m.auth_data service.account service.service

def signon_identity_new_from_db (m : AgManager) (cred_id : Nat) : Bool :=
  m.identities cred_id

/-- All the account services of the database, each a new object. -/
def ag_manager_get_account_services (m : AgManager) : List AgAccountService × AgManager :=
  let pairs := m.accounts.flatMap (fun a => (m.services a).map (fun sv => (a, sv)))
  pairs.foldl
    (fun (acc : List AgAccountService × AgManager) p =>
      let (service, m1) := ag_account_service_new acc.2 p.1 p.2
      (acc.1 ++ [service], m1))
    ([], m)

/-! ## GLib and telepathy-glib helpers -/

def g_variant_dup_string (value : GVariant) : Option String :=
  match value with
  | .string s => some s
  | .object_path s => some s
  | .signature s => some s
  | _ => none

def tp_str_empty (s : Option String) : Bool :=
  match s with
  | none => true
  | some str => str == ""

def g_strdelimit (s : String) (delimiter new_delimiter : Char) : String :=
  String.mk (s.data.map (fun c => if c = delimiter then new_delimiter else c))

def g_hash_table_contains {β : Type} (t : List (String × β)) (key : String) : Bool :=
  t.any (fun kv => kv.1 == key)

def g_hash_table_lookup {β : Type} (t : List (String × β)) (key : String) : Option β :=
  t.lookup key

def g_hash_table_insert {β : Type} (t : List (String × β)) (key : String) (value : β) :
    List (String × β) :=
  if g_hash_table_contains t key then
    t.map (fun kv => if kv.1 == key then (kv.1, value) else kv)
  else t ++ [(key, value)]

/-! ## The plugin -/

inductive DelayedSignal where
  | DELAYED_CREATE
  | DELAYED_DELETE
  deriving DecidableEq, Repr

structure DelayedSignalData where
  signal : DelayedSignal
  account_id : AgAccountId
  deriving DecidableEq, Repr

/-- The signals the plugin emits on itself for Mission Control. -/
inductive Signal where
  | created (account_name : String)
  | deleted (account_name : String)
  | altered (account_name : String)
  | toggled (account_name : String) (enabled : Bool)
  deriving DecidableEq, Repr

/-- User data of an outstanding `signon_identity_query_info` call. -/
structure AccountCreateData where
  account : AgAccountId
  service : AgAccountService
  deriving DecidableEq, Repr

/-- The private structure of the plugin (`accounts`, `pending_accounts`,
`pending_signals`, `loaded`, `ready`) together with the world it acts on. -/
structure McpAccountManagerAccountsSso where
  manager : AgManager
  /-- account name -> account service -/
  accounts : List (String × AgAccountService)
  /-- monitored account services without an account name, newest first -/
  pending_accounts : List AgAccountService
  /-- queue of delayed signals, head first -/
  pending_signals : List DelayedSignalData
  loaded : Bool
  ready : Bool
  /-- signals emitted so far, oldest first -/
  emitted : List Signal
  /-- accounts handed to `ag_account_store_async`, oldest first -/
  store_requests : List AgAccountId
  /-- signon queries whose callback has not run yet, oldest first -/
  queries : List AccountCreateData

def mcp_account_manager_accounts_sso_init (manager : AgManager) :
    McpAccountManagerAccountsSso :=
  { manager := manager, accounts := [], pending_accounts := [], pending_signals := [],
    loaded := false, ready := false, emitted := [], store_requests := [], queries := [] }

def _tp_transform_to_string (src : GVariant) : Option String :=
  match src with
  | .boolean b => if b then some "true" else some "false"
  | .string s => g_variant_dup_string (.string s)
  | .object_path s => g_variant_dup_string (.object_path s)
  | .signature s => g_variant_dup_string (.signature s)
  | _ => none

def _service_dup_tp_value (m : AgManager) (service : AgAccountService) (key : String) :
    Option String :=
  let real_key := KEY_PREFIX ++ key
  match ag_account_service_get_variant m service real_key with
  | none => none
  | some value => g_variant_dup_string value

def _service_set_tp_value (m : AgManager) (service : AgAccountService) (key : String)
    (value : Option String) : AgManager :=
  let real_key := KEY_PREFIX ++ key
  match value with
  | some v => ag_account_service_set_variant m service real_key (some (.string v))
  | none => ag_account_service_set_variant m service real_key none

def _service_dup_tp_account_name (m : AgManager) (service : AgAccountService) :
    Option String :=
  _service_dup_tp_value m service KEY_ACCOUNT_NAME

def _service_set_tp_account_name (m : AgManager) (service : AgAccountService)
    (account_name : String) : AgManager :=
  _service_set_tp_value m service KEY_ACCOUNT_NAME (some account_name)

def _add_service (self : McpAccountManagerAccountsSso) (service : AgAccountService)
    (account_name : String) : Bool × McpAccountManagerAccountsSso :=
  if g_hash_table_contains self.accounts account_name then
    (false, self)
  else
    (true, { self with accounts := g_hash_table_insert self.accounts account_name service })

def g_signal_emit (self : McpAccountManagerAccountsSso) (sig : Signal) :
    McpAccountManagerAccountsSso :=
  { self with emitted := self.emitted ++ [sig] }

def ag_account_store_async (self : McpAccountManagerAccountsSso) (account : AgAccountId) :
    McpAccountManagerAccountsSso :=
  { self with store_requests := self.store_requests ++ [account] }

/-- The function `tp_escape_as_identifier` belongs to telepathy-glib and is a
parameter. -/
def _account_create (tp_escape_as_identifier : String → String)
    (self : McpAccountManagerAccountsSso) (service : AgAccountService) :
    McpAccountManagerAccountsSso :=
  let account := service.account
  let cm_name := _service_dup_tp_value self.manager service "manager"
  let protocol_name := _service_dup_tp_value self.manager service "protocol"
  if tp_str_empty cm_name || tp_str_empty protocol_name then
    self
  else
    let cm_name := tp_escape_as_identifier (cm_name.getD "")
    let protocol_name := g_strdelimit (protocol_name.getD "") '-' '_'
    let service_name := tp_escape_as_identifier service.service
    let account_name :=
      cm_name ++ "/" ++ protocol_name ++ "/" ++ service_name ++ "_" ++ Nat.repr account
    let self :=
      { self with manager := _service_set_tp_account_name self.manager service account_name }
    let self := ag_account_store_async self account
    match _add_service self service account_name with
    | (true, self) => g_signal_emit self (.created account_name)
    | (false, self) => self

/-- The callback of `signon_identity_query_info`; `username` is
`signon_identity_info_get_username (info)`. -/
def _account_created_signon_cb (tp_escape_as_identifier : String → String)
    (self : McpAccountManagerAccountsSso) (data : AccountCreateData)
    (username : Option String) : McpAccountManagerAccountsSso :=
  let self := { self with queries := self.queries.erase data }
  if !tp_str_empty username then
    let self :=
      { self with manager := _service_set_tp_value self.manager data.service "param-account"
                    username }
    let self := ag_account_store_async self data.account
    _account_create tp_escape_as_identifier self data.service
  else
    self

def create_account (tp_escape_as_identifier : String → String) (service : AgAccountService)
    (self : McpAccountManagerAccountsSso) : McpAccountManagerAccountsSso :=
  match _service_dup_tp_account_name self.manager service with
  | none =>
    match _service_dup_tp_value self.manager service "param-account" with
    | none =>
      match ag_account_service_get_auth_data self.manager service with
      | none => self
      | some cred_id =>
        if !signon_identity_new_from_db self.manager cred_id then
          self
        else
          { self with queries := self.queries ++ [⟨service.account, service⟩] }
    | some _ => _account_create tp_escape_as_identifier self service
  | some account_name =>
    match _add_service self service account_name with
    | (true, self) => g_signal_emit self (.created account_name)
    | (false, self) => self

/-- One turn of the loop of `_account_created_cb` over the services of the
account: `l_data` is the service at the head of the list. -/
def _account_created_cb_service (tp_escape_as_identifier : String → String)
    (id : AgAccountId) (self : McpAccountManagerAccountsSso) (l_data : String) :
    McpAccountManagerAccountsSso :=
  let (service, m) := ag_account_service_new self.manager id l_data
  let self := { self with manager := m }
  if ag_account_get_enabled self.manager id then
    create_account tp_escape_as_identifier service self
  else
    { self with pending_accounts := service :: self.pending_accounts }

/-- The result is `none` when the handler dereferences a `NULL` account. -/
def _account_created_cb (tp_escape_as_identifier : String → String)
    (self : McpAccountManagerAccountsSso) (id : AgAccountId) :
    Option McpAccountManagerAccountsSso :=
  let account := ag_manager_get_account self.manager id
  if !self.ready then
    match account with
    | none => none
    | some account_id =>
      some { self with
        pending_signals := self.pending_signals ++ [⟨.DELAYED_CREATE, account_id⟩] }
  else
    some ((ag_account_list_services_by_type self.manager account).foldl
      (_account_created_cb_service tp_escape_as_identifier id) self)

/-- The loop of `_account_deleted_cb` over the hash table: the entries kept and
the signals emitted, in iteration order. -/
def _account_deleted_iter (m : AgManager) (id : AgAccountId) :
    List (String × AgAccountService) → List (String × AgAccountService) × List Signal
  | [] => ([], [])
  | (key, service) :: rest =>
    let (kept, signals) := _account_deleted_iter m id rest
    if service.account ≠ id then
      ((key, service) :: kept, signals)
    else
      match _service_dup_tp_account_name m service with
      | none => ((key, service) :: kept, signals)
      | some account_name => (kept, Signal.deleted account_name :: signals)

def _account_deleted_cb (self : McpAccountManagerAccountsSso) (id : AgAccountId) :
    McpAccountManagerAccountsSso :=
  if !self.ready then
    { self with pending_signals := self.pending_signals ++ [⟨.DELAYED_DELETE, id⟩] }
  else
    let (kept, signals) := _account_deleted_iter self.manager id self.accounts
    { self with
      accounts := kept
      emitted := self.emitted ++ signals
      pending_accounts := self.pending_accounts.filter (fun service => service.account ≠ id) }

def _service_enabled_cb (tp_escape_as_identifier : String → String)
    (service : AgAccountService) (enabled : Bool) (self : McpAccountManagerAccountsSso) :
    McpAccountManagerAccountsSso :=
  match _service_dup_tp_account_name self.manager service with
  | none =>
    if enabled then
      let self := create_account tp_escape_as_identifier service self
      { self with pending_accounts := self.pending_accounts.erase service }
    else
      self
  | some account_name => g_signal_emit self (.toggled account_name enabled)

def _service_changed_cb (service : AgAccountService) (self : McpAccountManagerAccountsSso) :
    McpAccountManagerAccountsSso :=
  let account_name := _service_dup_tp_account_name self.manager service
  if !self.ready || account_name.isNone then
    self
  else
    g_signal_emit self (.altered (account_name.getD ""))

/-- The result is `none` when the assertion `!self->priv->ready` fails. -/
def _ensure_loaded (self : McpAccountManagerAccountsSso) :
    Option McpAccountManagerAccountsSso :=
  if self.loaded then
    some self
  else
    let self := { self with loaded := true }
    if self.ready then
      none
    else
      let (services, m) := ag_manager_get_account_services self.manager
      let self := { self with manager := m }
      some (services.foldl
        (fun (self : McpAccountManagerAccountsSso) (service : AgAccountService) =>
          match _service_dup_tp_account_name self.manager service with
          | some account_name => (_add_service self service account_name).2
          | none =>
            { self with
              pending_signals := self.pending_signals ++ [⟨.DELAYED_CREATE, service.account⟩] })
        self)

def account_manager_accounts_sso_list (self : McpAccountManagerAccountsSso) :
    Option (McpAccountManagerAccountsSso × List String) :=
  match _ensure_loaded self with
  | none => none
  | some self =>
    some (self, self.accounts.foldl (fun accounts kv => kv.1 :: accounts) [])

def provider_to_tp_service_name (provider_name : Option String) : Option String :=
  if provider_name = some "google" then some "google-talk" else provider_name

/-- Settings of a service whose key starts with `key_start`, the start removed
(`ag_account_service_settings_iter_init` and `ag_account_settings_iter_get_next`). -/
def ag_account_service_settings (m : AgManager) (service : AgAccountService)
    (key_start : String) : List (String × GVariant) :=
  (m.settings service.account service.service).filterMap (fun kv =>
    if key_start.data.isPrefixOf kv.1.data then
      some (String.mk (kv.1.data.drop key_start.data.length), kv.2)
    else none)

/-- The return value and the values handed to `mcp_account_manager_set_value`,
in call order, as pairs of key and value. A `none` key asks for all settings. -/
def account_manager_accounts_sso_get (self : McpAccountManagerAccountsSso)
    (account_name : String) (key : Option String) : Bool × List (String × Option String) :=
  match g_hash_table_lookup self.accounts account_name with
  | none => (false, [])
  | some service =>
    let account := service.account
    let all :=
      if key = none then
        (ag_account_service_settings self.manager service KEY_PREFIX).filterMap (fun kv =>
          match _tp_transform_to_string kv.2 with
          | some value => some (kv.1, some value)
          | none => none)
      else []
    let enabled :=
      if key = none ∨ key = some "Enabled" then
        [("Enabled",
          some (if ag_account_service_get_enabled self.manager service then "true"
                else "false"))]
      else []
    let display_name :=
      if key = none ∨ key = some "DisplayName" then
        [("DisplayName", self.manager.display_name account)]
      else []
    let service_name :=
      if key = none ∨ key = some "Service" then
        [("Service", provider_to_tp_service_name (self.manager.provider_name account))]
      else []
    let icon :=
      if key = none ∨ key = some "Icon" then
        let icon_name := self.manager.service_icon service.service
        [("Icon",
          if icon_name.length = 0 then
            self.manager.provider_icon (self.manager.provider_name account)
          else some icon_name)]
      else []
    let handled := enabled ++ display_name ++ service_name ++ icon
    let rest :=
      match key with
      | some k =>
        if handled.isEmpty then [(k, _service_dup_tp_value self.manager service k)] else []
      | none => []
    (true, all ++ handled ++ rest)

def account_manager_accounts_sso_set (self : McpAccountManagerAccountsSso)
    (account_name : String) (key : String) (val : Option String) :
    Bool × McpAccountManagerAccountsSso :=
  match g_hash_table_lookup self.accounts account_name with
  | none => (false, self)
  | some service =>
    let account := service.account
    if key = "Enabled" then
      (true, { self with
        manager := ag_account_set_enabled self.manager account (val = some "true") })
    else if key = "DisplayName" then
      (true, { self with manager := ag_account_set_display_name self.manager account val })
    else
      (true, { self with manager := _service_set_tp_value self.manager service key val })

def account_manager_accounts_sso_create (self : McpAccountManagerAccountsSso)
    (_cm_name _protocol_name : String) (_params : List (String × String)) :
    Option String × McpAccountManagerAccountsSso :=
  (none, self)

def account_manager_accounts_sso_delete (self : McpAccountManagerAccountsSso)
    (_account_name : String) (_key : Option String) : Bool × McpAccountManagerAccountsSso :=
  (false, self)

def account_manager_accounts_sso_commit (self : McpAccountManagerAccountsSso) :
    Bool × McpAccountManagerAccountsSso :=
  (true, self.accounts.foldl (fun self kv => ag_account_store_async self kv.2.account) self)

/-- The queue loop of `account_manager_accounts_sso_ready`, run for at most `fuel`
iterations; `none` when the fuel runs out or a handler fails. -/
def ready_loop (tp_escape_as_identifier : String → String) :
    Nat → McpAccountManagerAccountsSso → Option McpAccountManagerAccountsSso
  | 0, _ => none
  | fuel + 1, self =>
    match self.pending_signals with
    | [] => some self
    | data :: rest =>
      let self := { self with pending_signals := rest }
      match data.signal with
      | .DELAYED_CREATE =>
        match _account_created_cb tp_escape_as_identifier self data.account_id with
        | none => none
        | some self => ready_loop tp_escape_as_identifier fuel self
      | .DELAYED_DELETE =>
        ready_loop tp_escape_as_identifier fuel (_account_deleted_cb self data.account_id)

def account_manager_accounts_sso_ready (tp_escape_as_identifier : String → String)
    (fuel : Nat) (self : McpAccountManagerAccountsSso) :
    Option McpAccountManagerAccountsSso :=
  if self.ready then
    some self
  else
    ready_loop tp_escape_as_identifier fuel { self with ready := true }

/-- The local account name in the words of the specification: the escaped
manager name, the protocol name with every `-` replaced by `_`, the escaped
service name and the decimal account id, joined as
`component/protocol/service_id`. -/
def spec_local_name (escape_as_identifier : String → String) (cm p s : String) (n : Nat) :
    String :=
  escape_as_identifier cm ++ "/" ++
    String.mk (p.data.map (fun c => if c = '-' then '_' else c)) ++ "/" ++
    escape_as_identifier s ++ "_" ++ Nat.repr n

/-! ## Closed examples -/

def _esc_ident_bad (c : Char) (is_first : Bool) : Bool :=
  (c.toNat < 97 || c.toNat > 122) && (c.toNat < 65 || c.toNat > 90) &&
    (c.toNat < 48 || c.toNat > 57 || is_first)

def hex_digit (n : Nat) : Char :=
  if n < 10 then Char.ofNat (48 + n) else Char.ofNat (87 + n)

def escape_chars : List Char → Bool → List Char
  | [], _ => []
  | c :: cs, is_first =>
    (if _esc_ident_bad c is_first then
      ['_', hex_digit (c.toNat / 16 % 16), hex_digit (c.toNat % 16)]
    else [c]) ++ escape_chars cs false

/-- The escaping of telepathy-glib on ASCII names: every character that is not
a letter or a digit, and a leading digit, becomes `_` and two hexadecimal
digits; the empty name becomes `_`. It instantiates the parameter of
`_account_create` in the closed examples. -/
def example_escape (name : String) : String :=
  if name = "" then "_" else String.mk (escape_chars name.data true)

/-- A database with the single account 7, which has one service `jabber-im`
with manager, protocol and account parameter set and no account name yet. -/
def example_manager : AgManager where
  accounts := [7]
  services := fun a => if a = 7 then ["jabber-im"] else []
  enabled := fun _ => false
  service_enabled := fun _ _ => false
  settings := fun a sv =>
    if a = 7 ∧ sv = "jabber-im" then
      [("telepathy/manager", .string "gabble"), ("telepathy/protocol", .string "jabber-x"),
       ("telepathy/param-account", .string "alice@example.org"),
       ("telepathy/param-require-encryption", .boolean true)]
    else []
  display_name := fun _ => some "Alice"
  provider_name := fun _ => some "google"
  service_icon := fun _ => ""
  provider_icon := fun _ => some "icon-google"
  auth_data := fun _ _ => some 3
  identities := fun c => c != 0
  next_obj := 1

def example_service : AgAccountService := ⟨7, "jabber-im", 0⟩

/-- The plugin right after construction on `example_manager`. -/
def example_init : McpAccountManagerAccountsSso :=
  mcp_account_manager_accounts_sso_init example_manager

/-- A ready plugin whose table binds `gabble/jabber_x/jabber_2dim_7` to
`example_service`, the service settings holding no account name. -/
def example_bound : McpAccountManagerAccountsSso :=
  { example_init with
    accounts := [("gabble/jabber_x/jabber_2dim_7", example_service)]
    loaded := true
    ready := true }

/-- The database of `example_manager` with the account name of the service
already stored from an earlier run. -/
def example_manager_named : AgManager :=
  _service_set_tp_account_name example_manager example_service "gabble/jabber_x/jabber_2dim_7"

/-- A ready plugin on `example_manager_named` whose table binds the stored name
to `example_service`, with a second object of account 7 and one of account 8 on
the pending list. -/
def example_named_bound : McpAccountManagerAccountsSso :=
  { mcp_account_manager_accounts_sso_init example_manager_named with
    accounts := [("gabble/jabber_x/jabber_2dim_7", example_service)]
    pending_accounts := [⟨7, "jabber-im", 5⟩, ⟨8, "jabber-im", 6⟩]
    loaded := true
    ready := true }

/-- A ready plugin on `example_manager` that has listed no account yet. -/
def example_ready_empty : McpAccountManagerAccountsSso :=
  { example_init with loaded := true, ready := true }

/-- The database of `example_manager` where the service has manager and
protocol names but neither an account parameter nor authentication data. -/
def example_manager_bare : AgManager :=
  { example_manager with
    settings := fun a sv =>
      if a = 7 ∧ sv = "jabber-im" then
        [("telepathy/manager", .string "gabble"), ("telepathy/protocol", .string "jabber-x")]
      else []
    auth_data := fun _ _ => none }

/-- A ready plugin on `example_manager_bare` that holds `example_service` on its
pending list. -/
def example_pending : McpAccountManagerAccountsSso :=
  { mcp_account_manager_accounts_sso_init example_manager_bare with
    pending_accounts := [example_service]
    loaded := true
    ready := true }

/-- The database of `example_manager_bare` with account 7 enabled and
authentication data whose credentials id is 3, so that binding the service
takes a signon query. -/
def example_manager_lookup : AgManager :=
  { example_manager_bare with
    enabled := fun _ => true
    auth_data := fun _ _ => some 3 }

/-! ## Reachable states -/

/-- A ready plugin on `example_manager_lookup` with one signon query
outstanding, for a service of account 7. -/
def example_lookup : McpAccountManagerAccountsSso :=
  { mcp_account_manager_accounts_sso_init { example_manager_lookup with next_obj := 3 } with
    loaded := true
    ready := true
    queries := [⟨7, ⟨7, "jabber-im", 2⟩⟩] }

/-- The states the plugin reaches from its construction on the database `m0`
through `list`, `ready`, the account-created, account-deleted and service
enabled handlers and the callbacks of its outstanding signon queries. Beyond
these, the service changed handler may run, `set` may be called on any key
other than the account name, manager and protocol keys, and the provider may
change the database in any way that leaves the stored settings alone. -/
inductive Reachable (tp_escape_as_identifier : String → String) (m0 : AgManager) :
    McpAccountManagerAccountsSso → Prop where
  | init : Reachable tp_escape_as_identifier m0 (mcp_account_manager_accounts_sso_init m0)
  | list (s s1 : McpAccountManagerAccountsSso) (names : List String) :
      Reachable tp_escape_as_identifier m0 s →
      account_manager_accounts_sso_list s = some (s1, names) →
      Reachable tp_escape_as_identifier m0 s1
  | ready (s s1 : McpAccountManagerAccountsSso) (fuel : Nat) :
      Reachable tp_escape_as_identifier m0 s →
      account_manager_accounts_sso_ready tp_escape_as_identifier fuel s = some s1 →
      Reachable tp_escape_as_identifier m0 s1
  | created (s s1 : McpAccountManagerAccountsSso) (id : AgAccountId) :
      Reachable tp_escape_as_identifier m0 s →
      _account_created_cb tp_escape_as_identifier s id = some s1 →
      Reachable tp_escape_as_identifier m0 s1
  | deleted (s : McpAccountManagerAccountsSso) (id : AgAccountId) :
      Reachable tp_escape_as_identifier m0 s →
      Reachable tp_escape_as_identifier m0 (_account_deleted_cb s id)
  | enabled (s : McpAccountManagerAccountsSso) (service : AgAccountService) (enabled : Bool) :
      Reachable tp_escape_as_identifier m0 s →
      Reachable tp_escape_as_identifier m0
        (_service_enabled_cb tp_escape_as_identifier service enabled s)
  | completed (s : McpAccountManagerAccountsSso) (data : AccountCreateData)
      (username : Option String) :
      Reachable tp_escape_as_identifier m0 s →
      data ∈ s.queries →
      Reachable tp_escape_as_identifier m0
        (_account_created_signon_cb tp_escape_as_identifier s data username)
  | changed (s : McpAccountManagerAccountsSso) (service : AgAccountService) :
      Reachable tp_escape_as_identifier m0 s →
      Reachable tp_escape_as_identifier m0 (_service_changed_cb service s)
  | set (s : McpAccountManagerAccountsSso) (account_name key : String) (val : Option String) :
      Reachable tp_escape_as_identifier m0 s →
      key ≠ KEY_ACCOUNT_NAME → key ≠ "manager" → key ≠ "protocol" →
      Reachable tp_escape_as_identifier m0
        (account_manager_accounts_sso_set s account_name key val).2
  | provider (s : McpAccountManagerAccountsSso) (m : AgManager) :
      Reachable tp_escape_as_identifier m0 s →
      m.settings = s.manager.settings →
      Reachable tp_escape_as_identifier m0 { s with manager := m }

/-! ## Settings and table lemmas -/

theorem lookup_filter_ne {β : Type} (l : List (String × β)) (key k : String) :
    (l.filter (fun kv => kv.1 != key)).lookup k = if k = key then none else l.lookup k := by
  induction l with
  | nil => simp
  | cons hd tl ih =>
    obtain ⟨a, b⟩ := hd
    by_cases ha : a = key
    · subst ha
      by_cases hk : k = a
      · subst hk; simp [List.filter_cons, ih]
      · have : (k == a) = false := by simpa using hk
        simp [List.filter_cons, ih, List.lookup_cons, this, hk]
    · have hne : (a != key) = true := by simpa using ha
      by_cases hk : k = a
      · subst hk
        simp [List.filter_cons, hne, List.lookup_cons, ha]
      · have : (k == a) = false := by simpa using hk
        simp [List.filter_cons, hne, List.lookup_cons, this, ih]

theorem get_variant_set_other_key (m : AgManager) (service service1 : AgAccountService)
    (key key1 : String) (value : Option GVariant) (h : key1 ≠ key) :
    ag_account_service_get_variant (ag_account_service_set_variant m service key value)
      service1 key1 = ag_account_service_get_variant m service1 key1 := by
  have hb : (key1 == key) = false := by simpa using h
  cases value <;>
    by_cases hs : service1.account = service.account ∧ service1.service = service.service <;>
    simp [ag_account_service_get_variant, ag_account_service_set_variant, lookup_filter_ne,
      List.lookup_cons, hs, h, hb]

theorem lookup_eq_none_of_not_contains {β : Type} (t : List (String × β)) (key : String)
    (h : g_hash_table_contains t key = false) : g_hash_table_lookup t key = none := by
  induction t with
  | nil => rfl
  | cons hd tl ih =>
    obtain ⟨a, b⟩ := hd
    simp only [g_hash_table_contains, List.any_cons, Bool.or_eq_false_iff] at h
    have hne : (key == a) = false := by
      have := h.1
      simp only [beq_eq_false_iff_ne, ne_eq] at this ⊢
      exact fun e => this e.symm
    simp only [g_hash_table_lookup, List.lookup_cons, hne]
    exact ih h.2

theorem lookup_append_entry {β : Type} (t : List (String × β)) (key k : String) (value : β) :
    (t ++ [(key, value)]).lookup k =
      match t.lookup k with
      | some v => some v
      | none => if k = key then some value else none := by
  induction t with
  | nil =>
    by_cases hk : k = key
    · subst hk; simp [List.lookup_cons]
    · have : (k == key) = false := by simpa using hk
      simp [List.lookup_cons, this, hk]
  | cons hd tl ih =>
    obtain ⟨a, b⟩ := hd
    by_cases hk : k = a
    · subst hk; simp [List.lookup_cons]
    · have : (k == a) = false := by simpa using hk
      simp [List.lookup_cons, this, ih]

/-! ## The account table -/

/-- C1: `_add_service` on a name absent from the table returns true, binds the
name to the service, adds one entry and leaves every other binding and every
other component of the state as it was; on a name already present it returns
false and leaves the state, hence the existing binding, unchanged. A second
call with the same name after a successful one returns false and changes
nothing. -/
theorem add_service_inserts_iff_absent (self : McpAccountManagerAccountsSso)
    (service service1 : AgAccountService) (account_name : String) :
    (g_hash_table_contains self.accounts account_name = false →
      (_add_service self service account_name).1 = true ∧
      (_add_service self service account_name).2 =
        { self with accounts := (_add_service self service account_name).2.accounts } ∧
      g_hash_table_lookup (_add_service self service account_name).2.accounts account_name
        = some service ∧
      (∀ k, k ≠ account_name →
        g_hash_table_lookup (_add_service self service account_name).2.accounts k
          = g_hash_table_lookup self.accounts k) ∧
      (_add_service self service account_name).2.accounts.length
        = self.accounts.length + 1 ∧
      _add_service (_add_service self service account_name).2 service1 account_name
        = (false, (_add_service self service account_name).2)) ∧
    (g_hash_table_contains self.accounts account_name = true →
      _add_service self service account_name = (false, self) ∧
      g_hash_table_lookup (_add_service self service account_name).2.accounts account_name
        = g_hash_table_lookup self.accounts account_name) := by
  constructor
  · intro h
    have hl := lookup_eq_none_of_not_contains self.accounts account_name h
    simp only [g_hash_table_lookup] at hl
    have hc : g_hash_table_contains (self.accounts ++ [(account_name, service)]) account_name
        = true := by
      simp [g_hash_table_contains]
    refine ⟨?_, ?_, ?_, ?_, ?_, ?_⟩
    · simp [_add_service, h]
    · simp [_add_service, h]
    · simp [_add_service, h, g_hash_table_insert, g_hash_table_lookup, lookup_append_entry, hl]
    · intro k hk
      simp only [_add_service, h, g_hash_table_insert, g_hash_table_lookup]
      rw [if_neg (by simp), if_neg (by simp), lookup_append_entry]
      cases List.lookup k self.accounts with
      | none => simp only [if_neg hk]
      | some v => rfl
    · simp [_add_service, h, g_hash_table_insert]
    · simp [_add_service, h, g_hash_table_insert, hc]
  · intro h
    simp [_add_service, h]

/-! ## Delayed signals and readiness -/

/-- C4: when the plugin is already ready, `ready` returns at once, with any
fuel, and the whole state, emitted signals included, is unchanged. -/
theorem ready_twice_is_noop (esc : String → String) (fuel : Nat)
    (self : McpAccountManagerAccountsSso) (hready : self.ready = true) :
    account_manager_accounts_sso_ready esc fuel self = some self := by
  simp [account_manager_accounts_sso_ready, hready]

theorem ready_twice_is_noop_witness :
    example_bound.ready = true ∧
    account_manager_accounts_sso_ready example_escape 0 example_bound = some example_bound :=
  ⟨rfl, ready_twice_is_noop example_escape 0 example_bound rfl⟩

/-! ## Credential lookup -/

/-- C9: when the username handed to the signon callback is `NULL` or empty, the
callback only retires its query: the account table, the database (so every
service setting) and the emitted signals are unchanged, and no account store is
requested. -/
theorem empty_username_abandons_binding (esc : String → String)
    (self : McpAccountManagerAccountsSso) (data : AccountCreateData)
    (username : Option String) (hempty : tp_str_empty username = true) :
    _account_created_signon_cb esc self data username =
        { self with queries := self.queries.erase data } ∧
    (_account_created_signon_cb esc self data username).accounts = self.accounts ∧
    (_account_created_signon_cb esc self data username).manager = self.manager ∧
    (_account_created_signon_cb esc self data username).emitted = self.emitted := by
  simp [_account_created_signon_cb, hempty]

theorem empty_username_abandons_binding_witness :
    tp_str_empty (some "") = true ∧
    (_account_created_signon_cb example_escape example_init ⟨7, example_service⟩ (some "") =
        { example_init with
          queries := example_init.queries.erase ⟨7, example_service⟩ } ∧
    (_account_created_signon_cb example_escape example_init ⟨7, example_service⟩
      (some "")).accounts = example_init.accounts ∧
    (_account_created_signon_cb example_escape example_init ⟨7, example_service⟩
      (some "")).manager = example_init.manager ∧
    (_account_created_signon_cb example_escape example_init ⟨7, example_service⟩
      (some "")).emitted = example_init.emitted) :=
  ⟨rfl, empty_username_abandons_binding example_escape example_init ⟨7, example_service⟩
    (some "") rfl⟩

/-! ## Settings translation -/

/-- C10: on `example_manager` the key `telepathy/param-require-encryption` of
`example_service` holds the boolean true. `_service_dup_tp_value` returns no
value for it, and `get` for that key hands no value to Mission Control, while
`_tp_transform_to_string` turns the same variant into `"true"` and `get` for all
keys reports `"true"` under that key. -/
theorem dup_tp_value_drops_boolean :
    ag_account_service_get_variant example_manager example_service
      (KEY_PREFIX ++ "param-require-encryption") = some (.boolean true) ∧
    _service_dup_tp_value example_manager example_service "param-require-encryption" = none ∧
    _tp_transform_to_string (.boolean true) = some "true" ∧
    account_manager_accounts_sso_get example_bound "gabble/jabber_x/jabber_2dim_7"
      (some "param-require-encryption") = (true, [("param-require-encryption", none)]) ∧
    ("param-require-encryption", some "true") ∈
      (account_manager_accounts_sso_get example_bound "gabble/jabber_x/jabber_2dim_7" none).2 := by
  decide

/-- C6, as stated, fails: `example_bound` binds a name to a service whose own
enabled flag is off. `set` of `Enabled` to `"true"` returns true and the `get`
of `Enabled` that follows reports `"false"`. -/
theorem set_enabled_then_get_reports_false :
    (account_manager_accounts_sso_set example_bound "gabble/jabber_x/jabber_2dim_7"
      "Enabled" (some "true")).1 = true ∧
    account_manager_accounts_sso_get
      (account_manager_accounts_sso_set example_bound "gabble/jabber_x/jabber_2dim_7"
        "Enabled" (some "true")).2
      "gabble/jabber_x/jabber_2dim_7" (some "Enabled") = (true, [("Enabled", some "false")]) ∧
    ¬ (("Enabled", some "true") ∈
      (account_manager_accounts_sso_get
        (account_manager_accounts_sso_set example_bound "gabble/jabber_x/jabber_2dim_7"
          "Enabled" (some "true")).2
        "gabble/jabber_x/jabber_2dim_7" (some "Enabled")).2) := by
  decide

/-- C6, amended: for every bound name, `set` of `Enabled` to `"true"` returns
true, turns the global enabled flag of the account on and changes nothing else
in the plugin; the `get` of `Enabled` that follows returns true and reports
exactly one value for `Enabled`: `"true"` when the enabled flag of the service
itself is on, and `"false"` when it is off. -/
theorem set_enabled_then_get_reports_service_flag (self : McpAccountManagerAccountsSso)
    (account_name : String) (service : AgAccountService)
    (hbound : g_hash_table_lookup self.accounts account_name = some service) :
    (account_manager_accounts_sso_set self account_name "Enabled" (some "true")).1 = true ∧
    (account_manager_accounts_sso_set self account_name "Enabled" (some "true")).2 =
      { self with manager := ag_account_set_enabled self.manager service.account true } ∧
    ag_account_get_enabled
      (account_manager_accounts_sso_set self account_name "Enabled" (some "true")).2.manager
      service.account = true ∧
    account_manager_accounts_sso_get
      (account_manager_accounts_sso_set self account_name "Enabled" (some "true")).2
      account_name (some "Enabled") =
      (true, [("Enabled",
        some (if self.manager.service_enabled service.account service.service then "true"
              else "false"))]) := by
  simp [account_manager_accounts_sso_set, account_manager_accounts_sso_get, hbound,
    ag_account_set_enabled, ag_account_get_enabled, ag_account_service_get_enabled]

theorem set_enabled_then_get_reports_service_flag_witness :
    g_hash_table_lookup example_bound.accounts "gabble/jabber_x/jabber_2dim_7"
      = some example_service ∧
    ((account_manager_accounts_sso_set example_bound "gabble/jabber_x/jabber_2dim_7"
      "Enabled" (some "true")).1 = true ∧
    (account_manager_accounts_sso_set example_bound "gabble/jabber_x/jabber_2dim_7"
      "Enabled" (some "true")).2 =
      { example_bound with
        manager := ag_account_set_enabled example_bound.manager example_service.account true } ∧
    ag_account_get_enabled
      (account_manager_accounts_sso_set example_bound "gabble/jabber_x/jabber_2dim_7"
        "Enabled" (some "true")).2.manager
      example_service.account = true ∧
    account_manager_accounts_sso_get
      (account_manager_accounts_sso_set example_bound "gabble/jabber_x/jabber_2dim_7"
        "Enabled" (some "true")).2
      "gabble/jabber_x/jabber_2dim_7" (some "Enabled") =
      (true, [("Enabled",
        some (if example_bound.manager.service_enabled example_service.account
                example_service.service then "true"
              else "false"))])) :=
  ⟨by decide,
    set_enabled_then_get_reports_service_flag example_bound "gabble/jabber_x/jabber_2dim_7"
      example_service (by decide)⟩

/-! ## Frame lemmas of the binding protocol -/

theorem account_create_eq (esc : String → String) (self : McpAccountManagerAccountsSso)
    (service : AgAccountService) :
    _account_create esc self service =
      if tp_str_empty (_service_dup_tp_value self.manager service "manager") ||
          tp_str_empty (_service_dup_tp_value self.manager service "protocol") then self
      else
        if g_hash_table_contains self.accounts
            (spec_local_name esc
              ((_service_dup_tp_value self.manager service "manager").getD "")
              ((_service_dup_tp_value self.manager service "protocol").getD "")
              service.service service.account) then
          { self with
            manager := _service_set_tp_account_name self.manager service
              (spec_local_name esc
                ((_service_dup_tp_value self.manager service "manager").getD "")
                ((_service_dup_tp_value self.manager service "protocol").getD "")
                service.service service.account)
            store_requests := self.store_requests ++ [service.account] }
        else
          { self with
            manager := _service_set_tp_account_name self.manager service
              (spec_local_name esc
                ((_service_dup_tp_value self.manager service "manager").getD "")
                ((_service_dup_tp_value self.manager service "protocol").getD "")
                service.service service.account)
            store_requests := self.store_requests ++ [service.account]
            accounts := self.accounts ++
              [(spec_local_name esc
                ((_service_dup_tp_value self.manager service "manager").getD "")
                ((_service_dup_tp_value self.manager service "protocol").getD "")
                service.service service.account, service)]
            emitted := self.emitted ++
              [Signal.created (spec_local_name esc
                ((_service_dup_tp_value self.manager service "manager").getD "")
                ((_service_dup_tp_value self.manager service "protocol").getD "")
                service.service service.account)] } := by
  unfold _account_create
  by_cases h : (tp_str_empty (_service_dup_tp_value self.manager service "manager") ||
          tp_str_empty (_service_dup_tp_value self.manager service "protocol")) = true
  · simp only [h, if_true]
  · simp only [h, if_false, Bool.false_eq_true]
    by_cases hc : g_hash_table_contains self.accounts
            (spec_local_name esc
              ((_service_dup_tp_value self.manager service "manager").getD "")
              ((_service_dup_tp_value self.manager service "protocol").getD "")
              service.service service.account) = true
    · simp only [spec_local_name, g_strdelimit] at hc
      simp [_add_service, ag_account_store_async, spec_local_name, g_strdelimit, hc]
    · simp only [spec_local_name, g_strdelimit] at hc
      simp [_add_service, ag_account_store_async, spec_local_name, g_strdelimit, hc,
        g_signal_emit, g_hash_table_insert]

theorem get_variant_set (m : AgManager) (service service1 : AgAccountService)
    (key key1 : String) (value : Option GVariant) :
    ag_account_service_get_variant (ag_account_service_set_variant m service key value)
      service1 key1 =
      if service1.account = service.account ∧ service1.service = service.service ∧ key1 = key
      then value else ag_account_service_get_variant m service1 key1 := by
  by_cases hk : key1 = key
  · subst hk
    by_cases hs : service1.account = service.account ∧ service1.service = service.service
    · cases value <;>
        simp [ag_account_service_get_variant, ag_account_service_set_variant,
          lookup_filter_ne, List.lookup_cons, hs]
    · have hs1 : ¬ (service1.account = service.account ∧ service1.service = service.service ∧
          key1 = key1) := fun h => hs ⟨h.1, h.2.1⟩
      rw [if_neg hs1]
      simp [ag_account_service_get_variant, ag_account_service_set_variant, hs]
  · have hs1 : ¬ (service1.account = service.account ∧ service1.service = service.service ∧
        key1 = key) := fun h => hk h.2.2
    rw [if_neg hs1]
    exact get_variant_set_other_key m service service1 key key1 value hk

theorem key_with_start_injective (k1 k2 : String) (h : KEY_PREFIX ++ k1 = KEY_PREFIX ++ k2) :
    k1 = k2 := by
  have hd := congrArg String.data h
  simp only [String.data_append] at hd
  exact String.ext (List.append_cancel_left hd)

theorem dup_tp_value_set (m : AgManager) (service service1 : AgAccountService)
    (key key1 : String) (value : Option String) :
    _service_dup_tp_value (_service_set_tp_value m service key value) service1 key1 =
      if service1.account = service.account ∧ service1.service = service.service ∧ key1 = key
      then value else _service_dup_tp_value m service1 key1 := by
  have hk : (KEY_PREFIX ++ key1 = KEY_PREFIX ++ key) ↔ key1 = key :=
    ⟨key_with_start_injective key1 key, fun e => by rw [e]⟩
  cases value with
  | none =>
    simp only [_service_dup_tp_value, _service_set_tp_value, get_variant_set, hk]
    split_ifs <;> rfl
  | some v =>
    simp only [_service_dup_tp_value, _service_set_tp_value, get_variant_set, hk]
    split_ifs <;> rfl

theorem account_create_manager (esc : String → String) (self : McpAccountManagerAccountsSso)
    (service : AgAccountService) :
    (_account_create esc self service).manager =
      if tp_str_empty (_service_dup_tp_value self.manager service "manager") ||
          tp_str_empty (_service_dup_tp_value self.manager service "protocol") then
        self.manager
      else
        _service_set_tp_account_name self.manager service
          (spec_local_name esc
            ((_service_dup_tp_value self.manager service "manager").getD "")
            ((_service_dup_tp_value self.manager service "protocol").getD "")
            service.service service.account) := by
  rw [account_create_eq]
  split_ifs <;> rfl

/-! ## Name derivation -/

/-- C7: when the settings of a service hold a non-empty manager name `cm` and a
non-empty protocol name `p`, the account name that `_account_create` stores for
the service is the name of the specification for `cm`, `p`, the service name
and the account id: `escape (cm) / p with - replaced by _ / escape (service)
_ decimal id`. Deriving again on the state so reached stores the same name. -/
theorem account_create_stores_spec_name (esc : String → String)
    (self : McpAccountManagerAccountsSso) (service : AgAccountService) (cm p : String)
    (hcm : _service_dup_tp_value self.manager service "manager" = some cm)
    (hp : _service_dup_tp_value self.manager service "protocol" = some p)
    (hcm_ne : cm ≠ "") (hp_ne : p ≠ "") :
    _service_dup_tp_account_name (_account_create esc self service).manager service =
      some (esc cm ++ "/" ++ String.mk (p.data.map (fun c => if c = '-' then '_' else c))
        ++ "/" ++ esc service.service ++ "_" ++ Nat.repr service.account) ∧
    _service_dup_tp_account_name (_account_create esc self service).manager service =
      some (spec_local_name esc cm p service.service service.account) ∧
    _service_dup_tp_account_name
      (_account_create esc (_account_create esc self service) service).manager service =
      _service_dup_tp_account_name (_account_create esc self service).manager service := by
  have he : (tp_str_empty (some cm) || tp_str_empty (some p)) = false := by
    simp [tp_str_empty, hcm_ne, hp_ne]
  have h1 : (_account_create esc self service).manager =
      _service_set_tp_account_name self.manager service
        (spec_local_name esc cm p service.service service.account) := by
    rw [account_create_manager, hcm, hp, he]
    simp
  have hm : _service_dup_tp_value (_account_create esc self service).manager service "manager"
      = some cm := by
    rw [h1, _service_set_tp_account_name, dup_tp_value_set, if_neg, hcm]
    simp [KEY_ACCOUNT_NAME]
  have hq : _service_dup_tp_value (_account_create esc self service).manager service
      "protocol" = some p := by
    rw [h1, _service_set_tp_account_name, dup_tp_value_set, if_neg, hp]
    simp [KEY_ACCOUNT_NAME]
  have h2 : (_account_create esc (_account_create esc self service) service).manager =
      _service_set_tp_account_name (_account_create esc self service).manager service
        (spec_local_name esc cm p service.service service.account) := by
    rw [account_create_manager, hm, hq, he]
    simp
  have hs : _service_dup_tp_account_name (_account_create esc self service).manager service
      = some (spec_local_name esc cm p service.service service.account) := by
    rw [h1]
    simp [_service_dup_tp_account_name, _service_set_tp_account_name, dup_tp_value_set]
  refine ⟨hs, hs, ?_⟩
  rw [hs, h2]
  simp [_service_dup_tp_account_name, _service_set_tp_account_name, dup_tp_value_set]

theorem account_create_stores_spec_name_witness :
    _service_dup_tp_value example_init.manager example_service "manager" = some "gabble" ∧
    _service_dup_tp_value example_init.manager example_service "protocol" = some "jabber-x" ∧
    "gabble" ≠ "" ∧ "jabber-x" ≠ "" ∧
    (_service_dup_tp_account_name
        (_account_create example_escape example_init example_service).manager example_service =
      some (example_escape "gabble" ++ "/" ++
        String.mk ("jabber-x".data.map (fun c => if c = '-' then '_' else c))
        ++ "/" ++ example_escape example_service.service ++ "_"
        ++ Nat.repr example_service.account) ∧
    _service_dup_tp_account_name
        (_account_create example_escape example_init example_service).manager example_service =
      some (spec_local_name example_escape "gabble" "jabber-x" example_service.service
        example_service.account) ∧
    _service_dup_tp_account_name
      (_account_create example_escape
        (_account_create example_escape example_init example_service) example_service).manager
      example_service =
      _service_dup_tp_account_name
        (_account_create example_escape example_init example_service).manager
        example_service) :=
  ⟨by decide, by decide, by decide, by decide,
    account_create_stores_spec_name example_escape example_init example_service "gabble"
      "jabber-x" (by decide) (by decide) (by decide) (by decide)⟩

/-! ## Account deletion -/

theorem account_deleted_iter_eq (m : AgManager) (id : AgAccountId)
    (l : List (String × AgAccountService)) :
    _account_deleted_iter m id l =
      (l.filter (fun kv =>
          decide (kv.2.account ≠ id) || (_service_dup_tp_account_name m kv.2).isNone),
       (l.filter (fun kv =>
          decide (kv.2.account = id) && (_service_dup_tp_account_name m kv.2).isSome)).map
        (fun kv => Signal.deleted ((_service_dup_tp_account_name m kv.2).getD ""))) := by
  induction l with
  | nil => rfl
  | cons hd tl ih =>
    obtain ⟨key, service⟩ := hd
    simp only [_account_deleted_iter, ih]
    by_cases hid : service.account = id
    · cases hn : _service_dup_tp_account_name m service with
      | none => simp [List.filter_cons, hid, hn]
      | some account_name => simp [List.filter_cons, hid, hn]
    · simp [List.filter_cons, hid]

/-- C5, as stated, fails. `example_bound` is ready and binds a name to a service
of account 7 whose settings hold no account name: the account-deleted handler
for account 7 keeps the entry and emits nothing. Such a state is reached
through the plugin itself: on a database where the name is stored, `list`,
`ready` and a `set` of the key `mc-account-name` to no value leave the table
binding the name to a service of account 7 without stored name, and the
handler keeps that entry as well. -/
theorem account_deleted_keeps_entry_without_stored_name :
    example_bound.ready = true ∧
    (_account_deleted_cb example_bound 7).accounts =
      [("gabble/jabber_x/jabber_2dim_7", example_service)] ∧
    (_account_deleted_cb example_bound 7).emitted = [] ∧
    (∃ s1 s2 s3 names,
      account_manager_accounts_sso_list
        (mcp_account_manager_accounts_sso_init example_manager_named) = some (s1, names) ∧
      account_manager_accounts_sso_ready example_escape 1 s1 = some s2 ∧
      account_manager_accounts_sso_set s2 "gabble/jabber_x/jabber_2dim_7" KEY_ACCOUNT_NAME none
        = (true, s3) ∧
      s3.ready = true ∧
      s3.accounts = [("gabble/jabber_x/jabber_2dim_7", ⟨7, "jabber-im", 1⟩)] ∧
      (_account_deleted_cb s3 7).accounts = s3.accounts ∧
      (_account_deleted_cb s3 7).emitted = []) := by
  refine ⟨rfl, by decide, by decide, ?_⟩
  refine ⟨_, _, _, _, rfl, rfl, rfl, rfl, by decide, by decide, by decide⟩

/-- C5, amended: when the plugin is ready and every table entry of the account
`id` is keyed by the account name stored in the settings of its service, the
account-deleted handler for `id` removes from the table exactly the entries
whose service belongs to `id`, emits one `deleted` signal per removed entry, in
table order, carrying the name the entry was keyed by, removes every service of
`id` from the pending list, emits nothing else and changes nothing else. -/
theorem account_deleted_removes_entries_of_account (self : McpAccountManagerAccountsSso)
    (id : AgAccountId) (hready : self.ready = true)
    (hnames : ∀ kv ∈ self.accounts, kv.2.account = id →
      _service_dup_tp_account_name self.manager kv.2 = some kv.1) :
    (_account_deleted_cb self id).accounts =
      self.accounts.filter (fun kv => decide (kv.2.account ≠ id)) ∧
    (_account_deleted_cb self id).emitted =
      self.emitted ++
        (self.accounts.filter (fun kv => decide (kv.2.account = id))).map
          (fun kv => Signal.deleted kv.1) ∧
    (_account_deleted_cb self id).pending_accounts =
      self.pending_accounts.filter (fun service => decide (service.account ≠ id)) ∧
    _account_deleted_cb self id =
      { self with
        accounts := (_account_deleted_cb self id).accounts
        emitted := (_account_deleted_cb self id).emitted
        pending_accounts := (_account_deleted_cb self id).pending_accounts } := by
  have hkept : self.accounts.filter (fun kv =>
        decide (kv.2.account ≠ id) || (_service_dup_tp_account_name self.manager kv.2).isNone)
      = self.accounts.filter (fun kv => decide (kv.2.account ≠ id)) := by
    apply List.filter_congr
    intro kv hkv
    by_cases hid : kv.2.account = id
    · simp [hid, hnames kv hkv hid]
    · simp [hid]
  have hsig : (self.accounts.filter (fun kv =>
        decide (kv.2.account = id) && (_service_dup_tp_account_name self.manager kv.2).isSome)).map
        (fun kv => Signal.deleted ((_service_dup_tp_account_name self.manager kv.2).getD ""))
      = (self.accounts.filter (fun kv => decide (kv.2.account = id))).map
          (fun kv => Signal.deleted kv.1) := by
    have hf : self.accounts.filter (fun kv =>
        decide (kv.2.account = id) && (_service_dup_tp_account_name self.manager kv.2).isSome)
        = self.accounts.filter (fun kv => decide (kv.2.account = id)) := by
      apply List.filter_congr
      intro kv hkv
      by_cases hid : kv.2.account = id
      · simp [hid, hnames kv hkv hid]
      · simp [hid]
    rw [hf]
    apply List.map_congr_left
    intro kv hkv
    have hmem := List.mem_filter.mp hkv
    have hid : kv.2.account = id := by simpa using hmem.2
    simp [hnames kv hmem.1 hid]
  simp only [_account_deleted_cb, hready, account_deleted_iter_eq, hkept, hsig]
  simp

theorem account_deleted_removes_entries_of_account_witness :
    example_named_bound.ready = true ∧
    (∀ kv ∈ example_named_bound.accounts, kv.2.account = 7 →
      _service_dup_tp_account_name example_named_bound.manager kv.2 = some kv.1) ∧
    ((_account_deleted_cb example_named_bound 7).accounts =
      example_named_bound.accounts.filter (fun kv => decide (kv.2.account ≠ 7)) ∧
    (_account_deleted_cb example_named_bound 7).emitted =
      example_named_bound.emitted ++
        (example_named_bound.accounts.filter (fun kv => decide (kv.2.account = 7))).map
          (fun kv => Signal.deleted kv.1) ∧
    (_account_deleted_cb example_named_bound 7).pending_accounts =
      example_named_bound.pending_accounts.filter (fun service => decide (service.account ≠ 7)) ∧
    _account_deleted_cb example_named_bound 7 =
      { example_named_bound with
        accounts := (_account_deleted_cb example_named_bound 7).accounts
        emitted := (_account_deleted_cb example_named_bound 7).emitted
        pending_accounts := (_account_deleted_cb example_named_bound 7).pending_accounts }) :=
  ⟨rfl, by decide,
    account_deleted_removes_entries_of_account example_named_bound 7 rfl (by decide)⟩

/-! ## Listing and binding -/

theorem list_fold_eq {β : Type} (l : List (String × β)) (init : List String) :
    l.foldl (fun accounts kv => kv.1 :: accounts) init = (l.map Prod.fst).reverse ++ init := by
  induction l generalizing init with
  | nil => rfl
  | cons hd tl ih => simp [List.foldl_cons, ih]

theorem list_of_loaded (self : McpAccountManagerAccountsSso) (hloaded : self.loaded = true) :
    account_manager_accounts_sso_list self =
      some (self, (self.accounts.map Prod.fst).reverse) := by
  simp [account_manager_accounts_sso_list, _ensure_loaded, hloaded, list_fold_eq]

theorem list_empty_of_ready (self : McpAccountManagerAccountsSso)
    (hready : self.ready = true)
    (hlist : account_manager_accounts_sso_list self = some (self, [])) :
    self.loaded = true ∧ self.accounts = [] := by
  cases hl : self.loaded with
  | false =>
    simp [account_manager_accounts_sso_list, _ensure_loaded, hl, hready] at hlist
  | true =>
    rw [list_of_loaded self hl] at hlist
    simp only [Option.some.injEq, Prod.mk.injEq, true_and, List.reverse_eq_nil_iff,
      List.map_eq_nil_iff] at hlist
    exact ⟨rfl, hlist⟩

/-- C8: take a ready plugin for which `list` returns no name, and a service
without stored account name whose settings hold an account parameter and
non-empty manager and protocol names. After the service's `enabled` signal with
value true, the settings of the service store the derived name, `list` returns
exactly that name, and the signals emitted are those emitted before followed by
one `created` signal carrying that name. -/
theorem enabled_signal_binds_cached_service (esc : String → String)
    (self : McpAccountManagerAccountsSso) (service : AgAccountService)
    (cm p username : String)
    (hready : self.ready = true)
    (hlist : account_manager_accounts_sso_list self = some (self, []))
    (hunbound : _service_dup_tp_account_name self.manager service = none)
    (hcached : _service_dup_tp_value self.manager service "param-account" = some username)
    (hcm : _service_dup_tp_value self.manager service "manager" = some cm)
    (hp : _service_dup_tp_value self.manager service "protocol" = some p)
    (hcm_ne : cm ≠ "") (hp_ne : p ≠ "") :
    _service_dup_tp_account_name (_service_enabled_cb esc service true self).manager service =
      some (spec_local_name esc cm p service.service service.account) ∧
    account_manager_accounts_sso_list (_service_enabled_cb esc service true self) =
      some (_service_enabled_cb esc service true self,
        [spec_local_name esc cm p service.service service.account]) ∧
    (_service_enabled_cb esc service true self).emitted =
      self.emitted ++
        [Signal.created (spec_local_name esc cm p service.service service.account)] := by
  obtain ⟨hloaded, hacc⟩ := list_empty_of_ready self hready hlist
  have he : (tp_str_empty (some cm) || tp_str_empty (some p)) = false := by
    simp [tp_str_empty, hcm_ne, hp_ne]
  have hcb : _service_enabled_cb esc service true self =
      { _account_create esc self service with
        pending_accounts := (_account_create esc self service).pending_accounts.erase service }
      := by
    simp [_service_enabled_cb, hunbound, create_account, hcached]
  have hcr : _account_create esc self service =
      { self with
        manager := _service_set_tp_account_name self.manager service
          (spec_local_name esc cm p service.service service.account)
        store_requests := self.store_requests ++ [service.account]
        accounts := [(spec_local_name esc cm p service.service service.account, service)]
        emitted := self.emitted ++
          [Signal.created (spec_local_name esc cm p service.service service.account)] } := by
    rw [account_create_eq, hcm, hp, he]
    simp [hacc, g_hash_table_contains]
  rw [hcb, hcr]
  refine ⟨?_, ?_, rfl⟩
  · simp [_service_dup_tp_account_name, _service_set_tp_account_name, dup_tp_value_set]
  · rw [list_of_loaded _ (by simpa using hloaded)]
    rfl

theorem enabled_signal_binds_cached_service_witness :
    example_ready_empty.ready = true ∧
    account_manager_accounts_sso_list example_ready_empty = some (example_ready_empty, []) ∧
    _service_dup_tp_account_name example_ready_empty.manager example_service = none ∧
    _service_dup_tp_value example_ready_empty.manager example_service "param-account"
      = some "alice@example.org" ∧
    _service_dup_tp_value example_ready_empty.manager example_service "manager"
      = some "gabble" ∧
    _service_dup_tp_value example_ready_empty.manager example_service "protocol"
      = some "jabber-x" ∧
    "gabble" ≠ "" ∧ "jabber-x" ≠ "" ∧
    (_service_dup_tp_account_name
        (_service_enabled_cb example_escape example_service true example_ready_empty).manager
        example_service =
      some (spec_local_name example_escape "gabble" "jabber-x" example_service.service
        example_service.account) ∧
    account_manager_accounts_sso_list
        (_service_enabled_cb example_escape example_service true example_ready_empty) =
      some (_service_enabled_cb example_escape example_service true example_ready_empty,
        [spec_local_name example_escape "gabble" "jabber-x" example_service.service
          example_service.account]) ∧
    (_service_enabled_cb example_escape example_service true example_ready_empty).emitted =
      example_ready_empty.emitted ++
        [Signal.created (spec_local_name example_escape "gabble" "jabber-x"
          example_service.service example_service.account)]) :=
  ⟨rfl, rfl, by decide, by decide, by decide, by decide, by decide, by decide,
    enabled_signal_binds_cached_service example_escape example_ready_empty example_service
      "gabble" "jabber-x" "alice@example.org" rfl rfl (by decide) (by decide) (by decide)
      (by decide) (by decide) (by decide)⟩

/-! ## Replay of the delayed signals -/

theorem deleted_cb_of_ready (self : McpAccountManagerAccountsSso) (id : AgAccountId)
    (hready : self.ready = true) :
    _account_deleted_cb self id =
      { self with
        accounts := (_account_deleted_iter self.manager id self.accounts).1
        emitted := self.emitted ++ (_account_deleted_iter self.manager id self.accounts).2
        pending_accounts :=
          self.pending_accounts.filter (fun service => service.account ≠ id) } := by
  unfold _account_deleted_cb
  rw [hready]
  rfl

theorem deleted_cb_clears_account (self : McpAccountManagerAccountsSso) (id : AgAccountId)
    (hready : self.ready = true)
    (h : ∀ kv ∈ self.accounts, kv.2.account = id →
      _service_dup_tp_account_name self.manager kv.2 ≠ none) :
    ∀ kv ∈ (_account_deleted_cb self id).accounts, kv.2.account ≠ id := by
  rw [deleted_cb_of_ready self id hready]
  intro kv hkv hid
  have hkv1 : kv ∈ (_account_deleted_iter self.manager id self.accounts).1 := hkv
  rw [account_deleted_iter_eq] at hkv1
  obtain ⟨hmem, hcond⟩ := List.mem_filter.mp hkv1
  have hnone : _service_dup_tp_account_name self.manager kv.2 = none := by
    simpa [hid] using hcond
  exact h kv hmem hid hnone

/-- C11: for all arguments and every state, `create` returns no name and
`delete` returns false, and both leave the whole state as it was: the account
table, the pending list, the queue of delayed signals and the database with
every setting. -/
theorem create_and_delete_refuse (self : McpAccountManagerAccountsSso)
    (cm_name protocol_name account_name : String) (params : List (String × String))
    (key : Option String) :
    account_manager_accounts_sso_create self cm_name protocol_name params = (none, self) ∧
    account_manager_accounts_sso_delete self account_name key = (false, self) ∧
    (account_manager_accounts_sso_create self cm_name protocol_name params).2.accounts
      = self.accounts ∧
    (account_manager_accounts_sso_create self cm_name protocol_name params).2.pending_accounts
      = self.pending_accounts ∧
    (account_manager_accounts_sso_create self cm_name protocol_name params).2.pending_signals
      = self.pending_signals ∧
    (account_manager_accounts_sso_create self cm_name protocol_name params).2.manager
      = self.manager ∧
    (account_manager_accounts_sso_delete self account_name key).2.accounts = self.accounts ∧
    (account_manager_accounts_sso_delete self account_name key).2.pending_accounts
      = self.pending_accounts ∧
    (account_manager_accounts_sso_delete self account_name key).2.pending_signals
      = self.pending_signals ∧
    (account_manager_accounts_sso_delete self account_name key).2.manager = self.manager :=
  ⟨rfl, rfl, rfl, rfl, rfl, rfl, rfl, rfl, rfl, rfl⟩

/-! ## The first listing -/

theorem foldl_preserves {α β : Type} (f : β → α → β) (P : β → Prop)
    (hstep : ∀ b a, P b → P (f b a)) (l : List α) : ∀ b, P b → P (l.foldl f b) := by
  induction l with
  | nil => intro b hb; exact hb
  | cons hd tl ih => intro b hb; exact ih (f b hd) (hstep b hd hb)

theorem ensure_loaded_of_not_ready (self : McpAccountManagerAccountsSso)
    (hloaded : self.loaded = false) (hready : self.ready = false) :
    ∃ s, _ensure_loaded self = some s ∧ s.loaded = true ∧ s.ready = false := by
  unfold _ensure_loaded
  simp only [hloaded, hready, Bool.false_eq_true, if_false]
  refine ⟨_, rfl, ?_⟩
  apply foldl_preserves _
    (fun s : McpAccountManagerAccountsSso => s.loaded = true ∧ s.ready = false)
  · intro b a hb
    cases _service_dup_tp_account_name b.manager a with
    | none => exact hb
    | some account_name =>
      simp only [_add_service]
      split_ifs
      · exact hb
      · exact hb
  · exact ⟨rfl, rfl⟩

/-- C15, as stated, fails: on the plugin right after construction, `ready`
returns a ready state whose loaded flag is unset, and `list` on that state
fails the assertion of `_ensure_loaded` and returns nothing. -/
theorem list_after_ready_fails_assertion :
    account_manager_accounts_sso_ready example_escape 1 example_init =
      some { example_init with ready := true } ∧
    ({ example_init with ready := true } : McpAccountManagerAccountsSso).loaded = false ∧
    _ensure_loaded { example_init with ready := true } = none ∧
    account_manager_accounts_sso_list { example_init with ready := true } = none ∧
    Reachable example_escape example_manager { example_init with ready := true } :=
  ⟨rfl, rfl, rfl, rfl,
    Reachable.ready example_init _ 1 Reachable.init rfl⟩

/-- C15, amended: in every state whose loaded flag is set or whose ready flag is
unset, so whenever the first `list` comes before `ready`, the assertion of
`_ensure_loaded` holds and `list` returns a state with the loaded flag set and
the same ready flag, together with the names the table of that state binds
(last bound first). In a state with the loaded flag unset and the ready flag
set, the assertion fails and `list` returns nothing. -/
theorem list_safe_unless_ready_came_first (self : McpAccountManagerAccountsSso) :
    ((self.loaded = true ∨ self.ready = false) →
      ∃ s, account_manager_accounts_sso_list self =
          some (s, (s.accounts.map Prod.fst).reverse) ∧
        s.loaded = true ∧ s.ready = self.ready ∧ (self.loaded = true → s = self)) ∧
    (self.loaded = false → self.ready = true →
      _ensure_loaded self = none ∧ account_manager_accounts_sso_list self = none) := by
  constructor
  · intro h
    cases hl : self.loaded with
    | true => exact ⟨self, list_of_loaded self hl, hl, rfl, fun _ => rfl⟩
    | false =>
      have hr : self.ready = false := by
        rcases h with h | h
        · rw [hl] at h; cases h
        · exact h
      obtain ⟨s, hs, hsl, hsr⟩ := ensure_loaded_of_not_ready self hl hr
      refine ⟨s, ?_, hsl, by rw [hsr, hr], fun h1 => by cases h1⟩
      simp only [account_manager_accounts_sso_list, hs, list_fold_eq, List.append_nil]
  · intro hl hr
    have h1 : _ensure_loaded self = none := by
      simp [_ensure_loaded, hl, hr]
    exact ⟨h1, by simp [account_manager_accounts_sso_list, h1]⟩

/-! ## The pending list and the enabled signal -/

theorem create_account_pending (esc : String → String) (self : McpAccountManagerAccountsSso)
    (service : AgAccountService) :
    (create_account esc service self).pending_accounts = self.pending_accounts := by
  unfold create_account
  cases _service_dup_tp_account_name self.manager service with
  | none =>
    cases _service_dup_tp_value self.manager service "param-account" with
    | none =>
      cases ag_account_service_get_auth_data self.manager service with
      | none => rfl
      | some cred_id =>
        simp only
        split_ifs <;> rfl
    | some username =>
      show (_account_create esc self service).pending_accounts = self.pending_accounts
      rw [account_create_eq]
      split_ifs <;> rfl
  | some account_name =>
    simp only [_add_service]
    split_ifs <;> rfl

/-- C13, as stated, fails: `example_pending` holds `example_service` on its
pending list; the service has no stored account name, no account parameter and
no authentication data. After its `enabled` signal with value true the binding
is abandoned (the table is empty, no query is outstanding, nothing is
emitted), yet the service is no longer on the pending list. -/
theorem enabled_signal_drops_abandoned_service :
    example_service ∈ example_pending.pending_accounts ∧
    _service_dup_tp_account_name example_pending.manager example_service = none ∧
    _service_dup_tp_value example_pending.manager example_service "param-account" = none ∧
    ag_account_service_get_auth_data example_pending.manager example_service = none ∧
    (_service_enabled_cb example_escape example_service true example_pending).accounts = [] ∧
    (_service_enabled_cb example_escape example_service true example_pending).queries = [] ∧
    (_service_enabled_cb example_escape example_service true example_pending).emitted = [] ∧
    (_service_enabled_cb example_escape example_service true example_pending).pending_accounts
      = [] ∧
    ¬ (example_service ∈
      (_service_enabled_cb example_escape example_service true example_pending).pending_accounts)
    := by
  decide

/-- C13, amended: for every service without stored account name, the `enabled`
signal with value true takes the service off the pending list (its first
occurrence, hence the service altogether when the list holds it once) whether
the binding attempt succeeds or is abandoned. When the settings hold an account
parameter and non-empty manager and protocol names and the derived name is not
in the table, the attempt succeeds and the table binds the derived name to the
service; when there is neither an account parameter nor authentication data,
the attempt is abandoned and only the pending list changes. The `enabled`
signal with value false changes nothing. -/
theorem enabled_signal_releases_pending (esc : String → String)
    (self : McpAccountManagerAccountsSso) (service : AgAccountService)
    (hunbound : _service_dup_tp_account_name self.manager service = none) :
    (_service_enabled_cb esc service true self).pending_accounts =
      self.pending_accounts.erase service ∧
    (self.pending_accounts.Nodup →
      service ∉ (_service_enabled_cb esc service true self).pending_accounts) ∧
    (∀ username cm p,
      _service_dup_tp_value self.manager service "param-account" = some username →
      _service_dup_tp_value self.manager service "manager" = some cm →
      _service_dup_tp_value self.manager service "protocol" = some p →
      cm ≠ "" → p ≠ "" →
      g_hash_table_contains self.accounts
        (spec_local_name esc cm p service.service service.account) = false →
      (spec_local_name esc cm p service.service service.account, service) ∈
        (_service_enabled_cb esc service true self).accounts) ∧
    (_service_dup_tp_value self.manager service "param-account" = none →
      ag_account_service_get_auth_data self.manager service = none →
      _service_enabled_cb esc service true self =
        { self with pending_accounts := self.pending_accounts.erase service }) ∧
    _service_enabled_cb esc service false self = self := by
  have hcb : _service_enabled_cb esc service true self =
      { create_account esc service self with
        pending_accounts := (create_account esc service self).pending_accounts.erase service }
      := by
    simp [_service_enabled_cb, hunbound]
  have hpend : (_service_enabled_cb esc service true self).pending_accounts =
      self.pending_accounts.erase service := by
    rw [hcb]
    show (create_account esc service self).pending_accounts.erase service = _
    rw [create_account_pending]
  refine ⟨hpend, ?_, ?_, ?_, ?_⟩
  · intro hnodup
    rw [hpend]
    exact fun hmem => (List.Nodup.mem_erase_iff hnodup).mp hmem |>.1 rfl
  · intro username cm p hu hcm hp hcm_ne hp_ne hc
    have he : (tp_str_empty (some cm) || tp_str_empty (some p)) = false := by
      simp [tp_str_empty, hcm_ne, hp_ne]
    rw [hcb]
    show (_, service) ∈ (create_account esc service self).accounts
    have hca : create_account esc service self = _account_create esc self service := by
      simp [create_account, hunbound, hu]
    rw [hca, account_create_eq, hcm, hp, he]
    simp [hc]
  · intro hu ha
    rw [hcb]
    have hca : create_account esc service self = self := by
      simp [create_account, hunbound, hu, ha]
    rw [hca]
  · simp [_service_enabled_cb, hunbound]

theorem enabled_signal_releases_pending_witness :
    _service_dup_tp_account_name example_pending.manager example_service = none ∧
    ((_service_enabled_cb example_escape example_service true example_pending).pending_accounts =
      example_pending.pending_accounts.erase example_service ∧
    (example_pending.pending_accounts.Nodup →
      example_service ∉
        (_service_enabled_cb example_escape example_service true example_pending).pending_accounts)
      ∧
    (∀ username cm p,
      _service_dup_tp_value example_pending.manager example_service "param-account"
        = some username →
      _service_dup_tp_value example_pending.manager example_service "manager" = some cm →
      _service_dup_tp_value example_pending.manager example_service "protocol" = some p →
      cm ≠ "" → p ≠ "" →
      g_hash_table_contains example_pending.accounts
        (spec_local_name example_escape cm p example_service.service example_service.account)
        = false →
      (spec_local_name example_escape cm p example_service.service example_service.account,
        example_service) ∈
        (_service_enabled_cb example_escape example_service true example_pending).accounts) ∧
    (_service_dup_tp_value example_pending.manager example_service "param-account" = none →
      ag_account_service_get_auth_data example_pending.manager example_service = none →
      _service_enabled_cb example_escape example_service true example_pending =
        { example_pending with
          pending_accounts := example_pending.pending_accounts.erase example_service }) ∧
    _service_enabled_cb example_escape example_service false example_pending = example_pending) :=
  ⟨by decide, enabled_signal_releases_pending example_escape example_pending example_service
    (by decide)⟩

/-! ## Account deletion during a credential lookup -/

theorem signon_cb_of_empty_username (esc : String → String)
    (self : McpAccountManagerAccountsSso) (data : AccountCreateData)
    (username : Option String) (hempty : tp_str_empty username = true) :
    (_account_created_signon_cb esc self data username).accounts = self.accounts ∧
    (_account_created_signon_cb esc self data username).emitted = self.emitted := by
  simp [_account_created_signon_cb, hempty]

theorem deleted_cb_manager (self : McpAccountManagerAccountsSso) (id : AgAccountId) :
    (_account_deleted_cb self id).manager = self.manager := by
  unfold _account_deleted_cb
  split_ifs <;> rfl

theorem signon_cb_binds (esc : String → String) (self : McpAccountManagerAccountsSso)
    (data : AccountCreateData) (username : Option String) (cm p : String)
    (hname : tp_str_empty username = false)
    (hcm : _service_dup_tp_value self.manager data.service "manager" = some cm)
    (hp : _service_dup_tp_value self.manager data.service "protocol" = some p)
    (hcm_ne : cm ≠ "") (hp_ne : p ≠ "")
    (hc : g_hash_table_contains self.accounts
      (spec_local_name esc cm p data.service.service data.service.account) = false) :
    (_account_created_signon_cb esc self data username).accounts =
      self.accounts ++
        [(spec_local_name esc cm p data.service.service data.service.account, data.service)] ∧
    (_account_created_signon_cb esc self data username).emitted =
      self.emitted ++
        [Signal.created (spec_local_name esc cm p data.service.service data.service.account)] := by
  have he : (tp_str_empty (some cm) || tp_str_empty (some p)) = false := by
    simp [tp_str_empty, hcm_ne, hp_ne]
  have hm : _service_dup_tp_value
      (_service_set_tp_value self.manager data.service "param-account" username)
      data.service "manager" = some cm := by
    rw [dup_tp_value_set, if_neg (by simp), hcm]
  have hq : _service_dup_tp_value
      (_service_set_tp_value self.manager data.service "param-account" username)
      data.service "protocol" = some p := by
    rw [dup_tp_value_set, if_neg (by simp), hp]
  simp only [_account_created_signon_cb, hname, Bool.not_false, if_true, ag_account_store_async]
  rw [account_create_eq]
  simp only [hm, hq, he, Bool.false_eq_true, if_false, Option.getD_some, hc]
  simp

/-- C12, as stated, fails. On `example_manager_lookup`, `list` and `ready` start
a signon query for the service of account 7. The account then leaves the
database and its account-deleted handler runs. The callback of the query with
the username `alice@example.org` binds the derived name to the service of
account 7 in the table and emits `created` for it. -/
theorem lookup_completion_binds_deleted_account :
    ∃ s1 names s2,
      account_manager_accounts_sso_list
        (mcp_account_manager_accounts_sso_init example_manager_lookup) = some (s1, names) ∧
      account_manager_accounts_sso_ready example_escape 2 s1 = some s2 ∧
      s2.ready = true ∧
      s2.accounts = [] ∧
      s2.queries = [⟨7, ⟨7, "jabber-im", 2⟩⟩] ∧
      (_account_deleted_cb { s2 with manager := { s2.manager with accounts := [] } } 7).accounts
        = [] ∧
      (_account_created_signon_cb example_escape
        (_account_deleted_cb { s2 with manager := { s2.manager with accounts := [] } } 7)
        ⟨7, ⟨7, "jabber-im", 2⟩⟩ (some "alice@example.org")).accounts =
        [("gabble/jabber_x/jabber_2dim_7", ⟨7, "jabber-im", 2⟩)] ∧
      (_account_created_signon_cb example_escape
        (_account_deleted_cb { s2 with manager := { s2.manager with accounts := [] } } 7)
        ⟨7, ⟨7, "jabber-im", 2⟩⟩ (some "alice@example.org")).emitted =
        [Signal.created "gabble/jabber_x/jabber_2dim_7"] :=
  ⟨_, _, _, rfl, rfl, rfl, by decide, by decide, by decide, by decide, by decide⟩

/-- C12, amended: take a ready plugin, the account-deleted handler for `id` and,
after it, the callback of a signon query for a service of `id`. With a `NULL`
or empty username the callback adds no table entry and emits nothing, and when
each table entry of `id` had an account name stored in its settings the state
after the callback has no table entry of account `id`. With a non-empty
username the callback does not look at the deletion: when the settings of the
service hold non-empty manager and protocol names and the derived name is not
in the table, it adds the entry binding the derived name to the service, so
the table has an entry of account `id`, and emits `created` for that name. -/
theorem lookup_completion_after_deletion (esc : String → String)
    (self : McpAccountManagerAccountsSso) (id : AgAccountId) (data : AccountCreateData)
    (username : Option String)
    (hready : self.ready = true) (haccount : data.service.account = id) :
    (tp_str_empty username = true →
      (_account_created_signon_cb esc (_account_deleted_cb self id) data username).accounts
        = (_account_deleted_cb self id).accounts ∧
      (_account_created_signon_cb esc (_account_deleted_cb self id) data username).emitted
        = (_account_deleted_cb self id).emitted ∧
      ((∀ kv ∈ self.accounts, kv.2.account = id →
          _service_dup_tp_account_name self.manager kv.2 ≠ none) →
        ∀ kv ∈
          (_account_created_signon_cb esc (_account_deleted_cb self id) data username).accounts,
          kv.2.account ≠ id)) ∧
    (∀ cm p, tp_str_empty username = false →
      _service_dup_tp_value self.manager data.service "manager" = some cm →
      _service_dup_tp_value self.manager data.service "protocol" = some p →
      cm ≠ "" → p ≠ "" →
      g_hash_table_contains (_account_deleted_cb self id).accounts
        (spec_local_name esc cm p data.service.service id) = false →
      (_account_created_signon_cb esc (_account_deleted_cb self id) data username).accounts
        = (_account_deleted_cb self id).accounts ++
          [(spec_local_name esc cm p data.service.service id, data.service)] ∧
      (_account_created_signon_cb esc (_account_deleted_cb self id) data username).emitted
        = (_account_deleted_cb self id).emitted ++
          [Signal.created (spec_local_name esc cm p data.service.service id)] ∧
      ∃ kv ∈
        (_account_created_signon_cb esc (_account_deleted_cb self id) data username).accounts,
        kv.2.account = id) := by
  constructor
  · intro hempty
    have h1 := (signon_cb_of_empty_username esc (_account_deleted_cb self id) data
      username hempty)
    refine ⟨h1.1, h1.2, ?_⟩
    intro hnames kv hkv
    rw [h1.1] at hkv
    exact deleted_cb_clears_account self id hready hnames kv hkv
  · intro cm p hname hcm hp hcm_ne hp_ne hc
    subst haccount
    have hb := signon_cb_binds esc (_account_deleted_cb self data.service.account) data
      username cm p hname (by rw [deleted_cb_manager]; exact hcm)
      (by rw [deleted_cb_manager]; exact hp) hcm_ne hp_ne hc
    refine ⟨hb.1, hb.2,
      ⟨(spec_local_name esc cm p data.service.service data.service.account, data.service),
        ?_, rfl⟩⟩
    rw [hb.1]
    exact List.mem_append_right _ (List.mem_singleton.mpr rfl)

theorem lookup_completion_after_deletion_witness :
    example_lookup.ready = true ∧
    (⟨7, ⟨7, "jabber-im", 2⟩⟩ : AccountCreateData).service.account = 7 ∧
    ((tp_str_empty (some "alice") = true →
      (_account_created_signon_cb example_escape (_account_deleted_cb example_lookup 7)
        ⟨7, ⟨7, "jabber-im", 2⟩⟩ (some "alice")).accounts
        = (_account_deleted_cb example_lookup 7).accounts ∧
      (_account_created_signon_cb example_escape (_account_deleted_cb example_lookup 7)
        ⟨7, ⟨7, "jabber-im", 2⟩⟩ (some "alice")).emitted
        = (_account_deleted_cb example_lookup 7).emitted ∧
      ((∀ kv ∈ example_lookup.accounts, kv.2.account = 7 →
          _service_dup_tp_account_name example_lookup.manager kv.2 ≠ none) →
        ∀ kv ∈
          (_account_created_signon_cb example_escape (_account_deleted_cb example_lookup 7)
            ⟨7, ⟨7, "jabber-im", 2⟩⟩ (some "alice")).accounts,
          kv.2.account ≠ 7)) ∧
    (∀ cm p, tp_str_empty (some "alice") = false →
      _service_dup_tp_value example_lookup.manager
        (⟨7, ⟨7, "jabber-im", 2⟩⟩ : AccountCreateData).service "manager" = some cm →
      _service_dup_tp_value example_lookup.manager
        (⟨7, ⟨7, "jabber-im", 2⟩⟩ : AccountCreateData).service "protocol" = some p →
      cm ≠ "" → p ≠ "" →
      g_hash_table_contains (_account_deleted_cb example_lookup 7).accounts
        (spec_local_name example_escape cm p
          (⟨7, ⟨7, "jabber-im", 2⟩⟩ : AccountCreateData).service.service 7) = false →
      (_account_created_signon_cb example_escape (_account_deleted_cb example_lookup 7)
        ⟨7, ⟨7, "jabber-im", 2⟩⟩ (some "alice")).accounts
        = (_account_deleted_cb example_lookup 7).accounts ++
          [(spec_local_name example_escape cm p
            (⟨7, ⟨7, "jabber-im", 2⟩⟩ : AccountCreateData).service.service 7,
            (⟨7, ⟨7, "jabber-im", 2⟩⟩ : AccountCreateData).service)] ∧
      (_account_created_signon_cb example_escape (_account_deleted_cb example_lookup 7)
        ⟨7, ⟨7, "jabber-im", 2⟩⟩ (some "alice")).emitted
        = (_account_deleted_cb example_lookup 7).emitted ++
          [Signal.created (spec_local_name example_escape cm p
            (⟨7, ⟨7, "jabber-im", 2⟩⟩ : AccountCreateData).service.service 7)] ∧
      ∃ kv ∈
        (_account_created_signon_cb example_escape (_account_deleted_cb example_lookup 7)
          ⟨7, ⟨7, "jabber-im", 2⟩⟩ (some "alice")).accounts,
        kv.2.account = 7)) :=
  ⟨rfl, rfl,
    lookup_completion_after_deletion example_escape example_lookup 7
      ⟨7, ⟨7, "jabber-im", 2⟩⟩ (some "alice") rfl rfl⟩

/-! ## Consistency of the table keys and the stored names -/

end AccountsSso
